import Mathlib

/-!
Shallow embedding of the QA analytics compliance engine
(data_source_manager.py, reference_data_manager.py,
enhanced_data_processor.py) together with theorems settling the
specification claims about it.

Machine conventions used throughout:
* a pandas DataFrame is modelled by its column-name list and row count
  (plus explicit row content where a claim needs it);
* Python dictionaries used as string-keyed maps are modelled either as
  association lists with insert-or-replace semantics or as functions
  `String → Option α`;
* a raised exception in a `try` block that the code catches is modelled
  by an `Option` none branch returning the failure result the code returns;
* timestamps are integers (seconds); `timedelta.days` is floor division
  by 86400 (`Int.fdiv`), matching Python semantics;
* the distinct warning/error message strings the code builds are
  modelled as constructors of an inductive `Warning` type, one
  constructor per distinct format string in the source.
-/

namespace QA

/-- A tabular dataset: the column names and the number of rows. -/
structure DF where
  columns : List String
  nrows : Nat
deriving DecidableEq

/-- Warnings and error messages produced by the loaders, one constructor
per distinct message format in the source code. -/
inductive Warning where
  | sourceNotFound (name : String)
  | fileNotFound (path : String)
  | fileTypeMismatch (ext : String)
  | unsupportedFileType (ext : String)
  | loadErr (name : String)
  | noRows (name : String)
  | rowCountBelowMin (count threshold : Nat)
  | missingColumns (cols : List String)
  | dataAge (name : String) (age threshold : Int)
deriving DecidableEq

/-- Insert-or-replace into an association list; models assignment
`d[k] = v` on a Python dict (`d`). -/
def insertAssoc {α : Type} (l : List (String × α)) (k : String) (v : α) :
    List (String × α) :=
  (l.filter (fun p => p.1 != k)) ++ [(k, v)]

end QA

namespace QA.DataSourceManager

/-- One entry of `columns_mapping` in a source definition
(`{source, aliases, target, data_type}`). -/
structure ColMapping where
  source : Option String
  aliases : List String
  target : Option String
  dataType : Option String
deriving DecidableEq

/-- The guard `if not source_col or not target_col: continue` in
`_map_columns`: an entry takes part only when both `source` and
`target` are present and non-empty (Python truthiness). -/
def validEntry (m : ColMapping) : Option (String × String) :=
  match m.source, m.target with
  | some s, some t => if s = "" || t = "" then none else some (s, t)
  | _, _ => none

/-- The `column_mapping` dict built by `DataSourceManager._map_columns`:
for each mapping entry, if the source column exists it is renamed to the
target; otherwise the first alias present is renamed to the target. -/
def buildColumnMapping (cols : List String) :
    List ColMapping → List (String × String) → List (String × String)
  | [], acc => acc
  | m :: ms, acc =>
    buildColumnMapping cols ms
      (match validEntry m with
       | none => acc
       | some (s, t) =>
         if decide (s ∈ cols) then insertAssoc acc s t
         else
           match m.aliases.find? (fun a => decide (a ∈ cols)) with
           | some a => insertAssoc acc a t
           | none => acc)

/-- Apply a batch rename (`df.rename(columns=column_mapping)`) to a
column list. -/
def applyRename (cm : List (String × String)) (cols : List String) :
    List String :=
  cols.map (fun c =>
    match cm.find? (fun p => p.1 == c) with
    | some p => p.2
    | none => c)

/-- `DataSourceManager._map_columns` restricted to its effect on the
column list: compute the batch mapping, then apply it in one rename. -/
def mapColumns (cols : List String) (mappings : List ColMapping) :
    List String :=
  let cm := buildColumnMapping cols mappings []
  if cm.isEmpty then cols else applyRename cm cols

end QA.DataSourceManager

namespace QA.EnhancedDataProcessor

/-- One entry of `source.required_columns` in the analytic config: a
standard column name plus the list under the `alias` key. -/
structure RequiredColumn where
  name : String
  aliases : List String
deriving DecidableEq

/-- The `column_mapping` dict built by
`EnhancedDataProcessor._map_column_aliases`: entries whose standard name
already exists are skipped (canonical wins); otherwise the first alias
present is renamed to the standard name. -/
def buildAliasMapping (cols : List String) :
    List RequiredColumn → List (String × String) → List (String × String)
  | [], acc => acc
  | r :: rs, acc =>
    buildAliasMapping cols rs
      (if decide (r.name ∈ cols) then acc
       else
         match r.aliases.find? (fun a => decide (a ∈ cols)) with
         | some a => QA.insertAssoc acc a r.name
         | none => acc)

/-- `EnhancedDataProcessor._map_column_aliases` restricted to its effect
on the column list. -/
def mapColumnAliases (cols : List String) (reqs : List RequiredColumn) :
    List String :=
  let cm := buildAliasMapping cols reqs []
  if cm.isEmpty then cols else QA.DataSourceManager.applyRename cm cols

/-- Rule parameters, an uninterpreted string-keyed bag passed through to the
rule implementation unchanged. -/
def Params := List (String × String)

/-- Reference data handed to a rule: either a key-value mapping or a
table (the processor keeps `self.reference_data` as a dict of these). -/
inductive RefDatum where
  | dict (entries : List (String × String))
  | table (df : QA.DF)

/-- The processor reference-data store `self.reference_data`. -/
def RefStore := List (String × RefDatum)

/-- Modelled from the spec: the bodies of the `ValidationRules` methods
are not part of this repository (the `validation_rules` module is an
external collaborator).  Per the spec, each rule implements the shared
capability `evaluate(dataset, params, referenceData?) -> per-row
boolean`, and may raise (modelled by `Except.error`).  The dispatcher in
`run_validations` passes the reference data only to the rule named
`title_based_approval`, so the third argument is an `Option`. -/
def Rule := QA.DF → Params → Option RefStore → Except Unit (List Bool)

/-- Modelled from the spec: the fixed registry of known rule
implementations looked up by name (`hasattr`/`getattr` on the
`ValidationRules` instance). -/
def RuleRegistry := String → Option Rule

/-- One entry of the `validations` section of the analytic config: a
rule name plus parameters. -/
structure ValidationDecl where
  rule : String
  params : Params

/-- The per-declaration result vector computed by the loop body of
`EnhancedDataProcessor.run_validations`: an unknown rule name or a rule
that raises yields an all-false vector aligned to the dataset index. -/
def resultFor (reg : RuleRegistry) (refs : RefStore) (df : QA.DF)
    (v : ValidationDecl) : List Bool :=
  match reg v.rule with
  | none => List.replicate df.nrows false
  | some r =>
    match r df v.params
        (if v.rule = "title_based_approval" then some refs else none) with
    | Except.error _ => List.replicate df.nrows false
    | Except.ok res => res

/-- The `validation_results` dict built by the loop in
`run_validations`, keyed by rule name (a later declaration with the same
rule name overwrites the earlier result, as dict assignment does). -/
def buildResults (reg : RuleRegistry) (refs : RefStore) (df : QA.DF) :
    List ValidationDecl → List (String × List Bool) → List (String × List Bool)
  | [], acc => acc
  | v :: vs, acc =>
    buildResults reg refs df vs (QA.insertAssoc acc v.rule (resultFor reg refs df v))

/-- The per-row compliance outcome computed at the end of
`run_validations`: `GC` when every result vector is true at the row
(`result_df.all(axis=1)`), else `DNC`. -/
def rowCompliance (results : List (String × List Bool)) (i : Nat) : String :=
  if results.all (fun p => p.2.getD i false) then "GC" else "DNC"

/-- The `Compliance` column produced by `run_validations`: per-row
GC/DNC when at least one validation result exists, the constant `N/A`
column otherwise. -/
def aggregateCompliance (results : List (String × List Bool)) (n : Nat) :
    List String :=
  if results.isEmpty then List.replicate n "N/A"
  else (List.range n).map (rowCompliance results)

/-- `run_validations` end to end on the embedded state: build the
results dict over the declarations, then aggregate the compliance
column. -/
def runValidations (reg : RuleRegistry) (refs : RefStore) (df : QA.DF)
    (decls : List ValidationDecl) : List (String × List Bool) × List String :=
  let results := buildResults reg refs df decls []
  (results, aggregateCompliance results df.nrows)

/-- Flipping the stored result of rule `k` to false at row `i`
(the hypothetical perturbation in the aggregation claim). -/
def flipRuleAt (results : List (String × List Bool)) (k : String) (i : Nat) :
    List (String × List Bool) :=
  results.map (fun p => if p.1 = k then (p.1, p.2.set i false) else p)

/-- Number of rows of a group whose `Compliance` value is `c`
(one cell of the `groupby(...).size().unstack(fill_value=0)` frame).
A row of the aggregated dataset is modelled as the pair
(value of the grouping column, value of the `Compliance` column). -/
def countVal (grp : List (String × String)) (c : String) : Nat :=
  (grp.filter (fun r => r.2 == c)).length

/-- The loop `for category in ["GC", "PC", "DNC"]: if category not in
summary.columns: summary[category] = 0` — appends the outcome
categories that the unstacked frame lacks, as zero columns. -/
def ensureCats (base extras : List String) : List String :=
  base ++ extras.filter (fun c => decide (c ∉ base))

/-- The outcome-category columns of the summary frame: the distinct
`Compliance` values occurring in the data, completed with GC, PC, DNC. -/
def summaryCats (rows : List (String × String)) : List String :=
  ensureCats ((rows.map Prod.snd).dedup) ["GC", "PC", "DNC"]

/-- Round a rational to the nearest integer, ties to even — the
rounding mode of numpy, which pandas `.round` delegates to — computed
from the numerator and denominator so that it evaluates by kernel
reduction. -/
def ratRoundHalfEven (q : ℚ) : ℤ :=
  let d : ℤ := (q.den : ℤ)
  let f := q.num.fdiv d
  let rem := q.num - f * d
  if 2 * rem < d then f
  else if d < 2 * rem then f + 1
  else if f % 2 = 0 then f else f + 1

/-- Rounding to two decimal places (`.round(2)`), modelled over ℚ on
the exact rational value. -/
def roundTo2 (q : ℚ) : ℚ := (ratRoundHalfEven (q * 100) : ℚ) / 100

/-- One row of the summary produced by `generate_summary`. -/
structure SummaryRow where
  group : String
  gc : Nat
  pc : Nat
  dnc : Nat
  total : Nat
  dncPercentage : ℚ
  exceedsThreshold : Bool
deriving DecidableEq

/-- The fixed column order imposed by
`ordered_cols = ["GC", "PC", "DNC", "Total", "DNC_Percentage",
"Exceeds_Threshold"]` in `generate_summary`. -/
def summaryColumnOrder : List String :=
  ["GC", "PC", "DNC", "Total", "DNC_Percentage", "Exceeds_Threshold"]

/-- The summary row of one group `g`: count rows per outcome category
(`Total` sums the counts across every category column of the frame,
after the missing ones of GC, PC, DNC were added as zeros), compute the
rounded DNC percentage and the threshold flag. -/
def summaryRow (rows : List (String × String)) (threshold : ℚ)
    (g : String) : SummaryRow :=
  let grp := rows.filter (fun r => r.1 == g)
  let total := ((summaryCats rows).map (fun c => countVal grp c)).sum
  let dnc := countVal grp "DNC"
  let pct := roundTo2 ((dnc : ℚ) / (total : ℚ) * 100)
  { group := g, gc := countVal grp "GC", pc := countVal grp "PC",
    dnc := dnc, total := total, dncPercentage := pct,
    exceedsThreshold := decide (pct > threshold) }

/-- `EnhancedDataProcessor.generate_summary` on the embedded data: one
summary row per distinct value of the grouping column. -/
def generateSummary (rows : List (String × String)) (threshold : ℚ) :
    List SummaryRow :=
  ((rows.map Prod.fst).dedup).map (summaryRow rows threshold)

end QA.EnhancedDataProcessor

namespace QA.ReferenceDataManager

/-- The metadata snapshot stored in `self.metadata[name]` by
`load_reference_data`. -/
structure RefMeta where
  lastModified : Int
  filePath : String
  rowCount : Nat
  columns : List String
  version : String
  loadedAt : Int
deriving DecidableEq

/-- One entry of the `reference_files` section of the reference-data
configuration. -/
structure RefConfigEntry where
  path : Option String
  format : Option String
  keyColumn : Option String
  valueColumn : Option String
  version : Option String
  maxAgeDays : Option Int
deriving DecidableEq

/-- The reference-data configuration loaded from
`configs/reference_data.yaml`. -/
structure RefConfig where
  referenceFiles : List (String × RefConfigEntry)
  defaultMaxAgeDays : Option Int

/-- Lookup of `self.config["reference_files"][name]`. -/
def lookupRef (cfg : RefConfig) (name : String) : Option RefConfigEntry :=
  (cfg.referenceFiles.find? (fun p => p.1 == name)).map Prod.snd

/-- A tabular reference file content: column names plus the rows, each
row a cell function from column name to cell text. -/
structure Table where
  columns : List String
  rows : List (String → String)

/-- Materialized reference data: a key-value mapping (config format
`dictionary`) or the table itself. -/
inductive RefData where
  | dict (entries : List (String × String))
  | table (t : Table)

/-- A reference file on disk: its lowercased extension (from
`os.path.splitext`), modification time and content; `read = none`
models a reader exception. -/
structure RefFile where
  ext : String
  mtime : Int
  read : Option Table

/-- The file system visible to the manager. -/
def FS := String → Option RefFile

/-- An entry of the append-only audit log written by
`update_reference_data`. -/
structure AuditEntry where
  timestamp : Int
  action : String
  name : String
  user : String
  previousVersion : Option RefMeta
  newVersion : Option RefMeta
deriving DecidableEq

/-- The mutable state of a `ReferenceDataManager` instance. -/
structure RefState where
  referenceData : List (String × RefData)
  metadata : List (String × RefMeta)
  auditLog : List AuditEntry

/-- Lookup of `self.metadata[name]`. -/
def lookupMeta (st : RefState) (name : String) : Option RefMeta :=
  (st.metadata.find? (fun p => p.1 == name)).map Prod.snd

/-- Lookup of `self.reference_data[name]`. -/
def lookupData (st : RefState) (name : String) : Option RefData :=
  (st.referenceData.find? (fun p => p.1 == name)).map Prod.snd

/-- The pure part of `ReferenceDataManager.load_reference_data`: the
chain of checks and reads that either produces the data plus its
metadata snapshot or fails (every early `return False`, and every
exception the enclosing `try` catches, is a `none`):
missing config entry; no path; file not found; unsupported extension;
reader exception; for `dictionary` format a missing/empty
`key_column`/`value_column` setting or a key/value column absent from
the file (a `KeyError` the `except` catches). -/
def loadRefPure (cfg : RefConfig) (fs : FS) (now : Int) (name : String)
    (filePath : Option String) : Option (RefData × RefMeta) :=
  match lookupRef cfg name with
  | none => none
  | some entry =>
    match filePath.orElse (fun _ => entry.path) with
    | none => none
    | some path =>
      match fs path with
      | none => none
      | some file =>
        if file.ext == ".xlsx" || file.ext == ".xls" || file.ext == ".csv" then
          match file.read with
          | none => none
          | some df =>
            let dataOpt : Option RefData :=
              if entry.format == some "dictionary" then
                match entry.keyColumn, entry.valueColumn with
                | some k, some v =>
                  if k == "" || v == "" then none
                  else if decide (k ∈ df.columns) && decide (v ∈ df.columns) then
                    some (RefData.dict (df.rows.map (fun r => (r k, r v))))
                  else none
                | _, _ => none
              else some (RefData.table df)
            match dataOpt with
            | none => none
            | some d =>
              some (d, { lastModified := file.mtime, filePath := path,
                         rowCount := df.rows.length, columns := df.columns,
                         version := entry.version.getD "1.0", loadedAt := now })
        else none

/-- `ReferenceDataManager.load_reference_data`: on success store the
data and the metadata snapshot under the name; any failure leaves the
state untouched and returns false. -/
def loadReferenceData (cfg : RefConfig) (fs : FS) (now : Int)
    (st : RefState) (name : String) (filePath : Option String) :
    RefState × Bool :=
  match loadRefPure cfg fs now name filePath with
  | none => (st, false)
  | some (d, m) =>
    ({ st with referenceData := QA.insertAssoc st.referenceData name d,
               metadata := QA.insertAssoc st.metadata name m }, true)

/-- `ReferenceDataManager.check_freshness`: never-loaded data is stale;
otherwise the effective maximum age is the explicit argument, else the
per-definition `max_age_days`, else the configured
`default_max_age_days`, else 30; the age in whole days (floor, as
`timedelta.days`) must not exceed it. -/
def checkFreshness (cfg : RefConfig) (now : Int) (st : RefState)
    (name : String) (maxAgeDaysArg : Option Int) : Bool :=
  match lookupMeta st name with
  | none => false
  | some meta =>
    let maxAge :=
      match maxAgeDaysArg with
      | some m => m
      | none =>
        match (lookupRef cfg name).bind (fun e => e.maxAgeDays) with
        | some m => m
        | none => cfg.defaultMaxAgeDays.getD 30
    decide ((now - meta.lastModified).fdiv 86400 ≤ maxAge)

/-- The effective maximum age actually used by `check_freshness`: the
explicit argument, else the per-definition `max_age_days`, else the
configured `default_max_age_days`, else 30. -/
def effectiveMaxAge (cfg : RefConfig) (name : String)
    (override : Option Int) : Int :=
  match override with
  | some m => m
  | none =>
    match (lookupRef cfg name).bind (fun e => e.maxAgeDays) with
    | some m => m
    | none => cfg.defaultMaxAgeDays.getD 30

/-- Modelled from the spec words (for comparison with the code): the
effective maximum age as the freshness claim states it — the explicit
override if given, else the per-definition threshold, else the global
default of 30 days, with no mention of the configured
`default_max_age_days`. -/
def effectiveMaxSpec (override perDef : Option Int) : Int :=
  override.getD (perDef.getD 30)

/-- `ReferenceDataManager.update_reference_data`: snapshot the previous
metadata, reload from the new path, and on success append one audit
entry recording previous and new snapshots; on failure return the load
result (the untouched state) without logging. -/
def updateReferenceData (cfg : RefConfig) (fs : FS) (now : Int)
    (st : RefState) (name filePath user : String) : RefState × Bool :=
  let prev := lookupMeta st name
  let res := loadReferenceData cfg fs now st name (some filePath)
  if res.2 then
    let entry : AuditEntry :=
      { timestamp := now, action := "update_reference", name := name,
        user := user, previousVersion := prev,
        newVersion := lookupMeta res.1 name }
    ({ res.1 with auditLog := res.1.auditLog ++ [entry] }, true)
  else res

end QA.ReferenceDataManager

namespace QA.DataSourceManager

/-- One entry of `validation_rules` in a source definition; `threshold`
defaults to 0 and `columns` to the empty list as in the `rule.get`
calls. -/
structure ValidationRuleCfg where
  ruleType : String
  threshold : Nat
  columns : List String
deriving DecidableEq

/-- A data-source definition from the registry. -/
structure SourceConfig where
  fileType : Option String
  sheetName : Option String
  validationRules : List ValidationRuleCfg
  columnsMapping : List ColMapping
deriving DecidableEq

/-- Python `str.lower` on ASCII configuration values (written over the
character list so that it evaluates by kernel reduction). -/
def toLowerStr (s : String) : String := ⟨s.data.map Char.toLower⟩

/-- A data file on disk: its lowercased extension (from
`os.path.splitext(file_path)[1].lower()`), modification time and tabular
content; `read = none` models a reader exception.  The Excel and CSV
readers are modelled as both yielding the file content (sheet selection
does not affect the properties proved here). -/
structure FileData where
  ext : String
  mtime : Int
  read : Option QA.DF
deriving DecidableEq

/-- `DataSourceManager._validate_data`: advisory checks that only
collect warnings (`row_count_min` and `required_columns`; unknown rule
types are ignored). -/
def validateData (df : QA.DF) : List ValidationRuleCfg → List QA.Warning
  | [] => []
  | r :: rs =>
    (if r.ruleType = "row_count_min" then
       (if df.nrows < r.threshold then
          [QA.Warning.rowCountBelowMin df.nrows r.threshold] else [])
     else if r.ruleType = "required_columns" then
       (let missing := r.columns.filter (fun c => decide (c ∉ df.columns))
        if missing.isEmpty then [] else [QA.Warning.missingColumns missing])
     else []) ++ validateData df rs

/-- `DataSourceManager.load_data_source`: result triple
(success, data, warnings).  The file-type mismatch warning is emitted
only when the expected type (default `xlsx`) lowercases to `xlsx` and
the extension is not `.xlsx`/`.xls`; reader dispatch is by extension;
a reader exception or an empty frame fails the load, returning only the
error message (warnings collected before that point are discarded, as
the code returns a fresh list there); advisory validation warnings and
the stale-data warning accumulate; column mapping and date conversion
do not affect success. -/
def loadDataSource (registry : String → Option SourceConfig)
    (fs : String → Option FileData) (freshnessSetting : Option Int)
    (now : Int) (sourceName filePath : String) :
    Bool × Option QA.DF × List QA.Warning :=
  match registry sourceName with
  | none => (false, none, [QA.Warning.sourceNotFound sourceName])
  | some cfg =>
    match fs filePath with
    | none => (false, none, [QA.Warning.fileNotFound filePath])
    | some file =>
      let expected := toLowerStr (cfg.fileType.getD "xlsx")
      let warnings0 : List QA.Warning :=
        if expected = "xlsx" && decide (file.ext ∉ [".xlsx", ".xls"]) then
          [QA.Warning.fileTypeMismatch file.ext]
        else []
      if decide (file.ext ∈ [".xlsx", ".xls"]) || file.ext == ".csv" then
        match file.read with
        | none => (false, none, [QA.Warning.loadErr sourceName])
        | some df =>
          if df.nrows == 0 then (false, none, [QA.Warning.noRows sourceName])
          else
            let warnings1 := warnings0 ++ validateData df cfg.validationRules
            let df1 : QA.DF :=
              { df with columns := mapColumns df.columns cfg.columnsMapping }
            let dataAge := (now - file.mtime).fdiv 86400
            let fdays : Int := freshnessSetting.getD 7
            let warnings2 :=
              if dataAge > fdays then
                warnings1 ++ [QA.Warning.dataAge sourceName dataAge fdays]
              else warnings1
            (true, some df1, warnings2)
      else (false, none, [QA.Warning.unsupportedFileType file.ext])

end QA.DataSourceManager

namespace QA.EnhancedDataProcessor

/-- `EnhancedDataProcessor._check_required_columns` for the legacy
config shape: the required names of `source.required_columns` that the
data lacks. -/
def checkRequiredColumnsOld (reqs : List RequiredColumn)
    (cols : List String) : List String :=
  (reqs.map (fun r => r.name)).filter (fun c => decide (c ∉ cols))

/-- The direct (legacy) branch of
`EnhancedDataProcessor.load_source_data`: read the file, map the column
aliases, then fail when any required column is missing (`_clean_data`
changes cell values only, not the column list or row count, so it is
the identity in this abstraction).  `file = none` models a reader
exception, which the enclosing `try` turns into a failed load. -/
def loadSourceDataDirect (reqs : List RequiredColumn)
    (file : Option QA.DF) : Bool × Option QA.DF :=
  match file with
  | none => (false, none)
  | some df =>
    let df1 : QA.DF := { df with columns := mapColumnAliases df.columns reqs }
    let missing := checkRequiredColumnsOld reqs df1.columns
    if missing.isEmpty then (true, some df1) else (false, some df1)

end QA.EnhancedDataProcessor


/-! Theorems settling the claims, with shared helper lemmas first. -/

namespace QA

open QA.DataSourceManager QA.EnhancedDataProcessor QA.ReferenceDataManager

theorem applyRename_singleton (k v : String) (cols : List String) :
    applyRename [(k, v)] cols = cols.map (fun c => if c = k then v else c) := by
  unfold applyRename
  congr 1
  funext c
  by_cases h : k = c
  · subst h; simp [List.find?]
  · have hb : (k == c) = false := by
      simp only [beq_eq_false_iff_ne, ne_eq]; exact h
    have hcne : ¬ c = k := fun e => h e.symm
    simp [List.find?, hb, hcne]

theorem buildColumnMapping_acc_of_cleared (cols : List String)
    (ms : List ColMapping)
    (h : ∀ m ∈ ms, ∀ st ∈ (validEntry m).toList,
      st.1 ∉ cols ∧ ∀ a ∈ m.aliases, a ∉ cols) :
    ∀ acc, buildColumnMapping cols ms acc = acc := by
  induction ms with
  | nil => intro acc; rfl
  | cons m ms ih =>
    intro acc
    have hrest : ∀ m ∈ ms, ∀ st ∈ (validEntry m).toList,
        st.1 ∉ cols ∧ ∀ a ∈ m.aliases, a ∉ cols :=
      fun x hx => h x (List.mem_cons_of_mem _ hx)
    unfold buildColumnMapping
    cases hv : validEntry m with
    | none => simpa using ih hrest acc
    | some st =>
      obtain ⟨hs, ha⟩ := h m (List.mem_cons_self _ _) st (by simp [hv])
      have hfind : st.1 ∉ cols ∧
          m.aliases.find? (fun a => decide (a ∈ cols)) = none := by
        refine ⟨hs, List.find?_eq_none.mpr ?_⟩
        intro a hamem
        simpa using ha a hamem
      obtain ⟨st1, st2⟩ := st
      simp only [decide_eq_true_eq]
      rw [if_neg (by simpa using hfind.1), hfind.2]
      exact ih hrest acc

/-- C6 (amended): column mapping is idempotent at the column-set level
whenever a single application clears the source column and aliases of
every mapping entry from the column list — then the second application computes
an empty rename batch and changes nothing, so the column set (indeed the
column list) of applying the mapping twice equals that of applying it
once.  (In general the claim fails: see the counterexample, where the
first pass renames the source and leaves an alias behind, and the second
pass renames that alias too.) -/
theorem C6_mapColumns_idempotent_of_cleared (cols : List String)
    (ms : List ColMapping)
    (h : ∀ m ∈ ms, ∀ st ∈ (validEntry m).toList,
      st.1 ∉ mapColumns cols ms ∧ ∀ a ∈ m.aliases, a ∉ mapColumns cols ms) :
    mapColumns (mapColumns cols ms) ms = mapColumns cols ms := by
  have hnil := buildColumnMapping_acc_of_cleared (mapColumns cols ms) ms h []
  show (if (buildColumnMapping (mapColumns cols ms) ms []).isEmpty then
          mapColumns cols ms
        else applyRename (buildColumnMapping (mapColumns cols ms) ms [])
          (mapColumns cols ms)) = mapColumns cols ms
  rw [hnil]
  rfl

/-- Witness for C6: a concrete dataset and mapping satisfying the
hypothesis, on which the theorem yields idempotence. -/
theorem C6_mapColumns_idempotent_witness :
    mapColumns (mapColumns ["ali"] [⟨some "src", ["ali"], some "tgt", none⟩])
        [⟨some "src", ["ali"], some "tgt", none⟩]
      = mapColumns ["ali"] [⟨some "src", ["ali"], some "tgt", none⟩] :=
  C6_mapColumns_idempotent_of_cleared ["ali"]
    [⟨some "src", ["ali"], some "tgt", none⟩] (by decide)

/-- Counterexample for C6 as stated: with columns [src, ali] and one
mapping entry (source src, aliases [ali], target tgt), one application
yields [tgt, ali] but a second application renames the leftover alias
too, yielding [tgt, tgt]; the column sets differ (ali is in the first
but not the second), so applying the column mapping twice does not give
the same column set as applying it once. -/
theorem C6_mapColumns_not_idempotent_counterexample :
    mapColumns ["src", "ali"] [⟨some "src", ["ali"], some "tgt", none⟩]
      = ["tgt", "ali"]
    ∧ mapColumns (mapColumns ["src", "ali"]
          [⟨some "src", ["ali"], some "tgt", none⟩])
        [⟨some "src", ["ali"], some "tgt", none⟩] = ["tgt", "tgt"]
    ∧ ("ali" ∈ (["tgt", "ali"] : List String)
        ∧ "ali" ∉ (["tgt", "tgt"] : List String)) := by
  decide

theorem mapColumns_single_source (cols : List String) (m : ColMapping)
    (s t : String) (hv : validEntry m = some (s, t)) (hs : s ∈ cols) :
    mapColumns cols [m] = cols.map (fun c => if c = s then t else c) := by
  have hb : buildColumnMapping cols [m] [] = [(s, t)] := by
    simp [buildColumnMapping, hv, hs, insertAssoc]
  show (if (buildColumnMapping cols [m] []).isEmpty then cols
        else applyRename (buildColumnMapping cols [m] []) cols)
      = cols.map (fun c => if c = s then t else c)
  rw [hb]
  simp [applyRename_singleton]

theorem mapColumns_single_alias (cols : List String) (m : ColMapping)
    (s t a : String) (hv : validEntry m = some (s, t)) (hs : s ∉ cols)
    (hf : m.aliases.find? (fun x => decide (x ∈ cols)) = some a) :
    mapColumns cols [m] = cols.map (fun c => if c = a then t else c) := by
  have hb : buildColumnMapping cols [m] [] = [(a, t)] := by
    simp [buildColumnMapping, hv, hs, hf, insertAssoc]
  show (if (buildColumnMapping cols [m] []).isEmpty then cols
        else applyRename (buildColumnMapping cols [m] []) cols)
      = cols.map (fun c => if c = a then t else c)
  rw [hb]
  simp [applyRename_singleton]

theorem mapColumns_single_absent (cols : List String) (m : ColMapping)
    (s t : String) (hv : validEntry m = some (s, t)) (hs : s ∉ cols)
    (ha : ∀ x ∈ m.aliases, x ∉ cols) :
    mapColumns cols [m] = cols := by
  have hf : m.aliases.find? (fun x => decide (x ∈ cols)) = none :=
    List.find?_eq_none.mpr (fun x hx => by simpa using ha x hx)
  have hb : buildColumnMapping cols [m] [] = [] := by
    simp [buildColumnMapping, hv, hs, hf]
  show (if (buildColumnMapping cols [m] []).isEmpty then cols
        else applyRename (buildColumnMapping cols [m] []) cols) = cols
  rw [hb]
  rfl

theorem mapColumnAliases_single_canonical (cols : List String)
    (r : RequiredColumn) (hn : r.name ∈ cols) :
    mapColumnAliases cols [r] = cols := by
  have hb : buildAliasMapping cols [r] [] = [] := by
    simp [buildAliasMapping, hn]
  show (if (buildAliasMapping cols [r] []).isEmpty then cols
        else applyRename (buildAliasMapping cols [r] []) cols) = cols
  rw [hb]
  rfl

theorem mapColumnAliases_single_alias (cols : List String)
    (r : RequiredColumn) (a : String) (hn : r.name ∉ cols)
    (hf : r.aliases.find? (fun x => decide (x ∈ cols)) = some a) :
    mapColumnAliases cols [r] = cols.map (fun c => if c = a then r.name else c) := by
  have hb : buildAliasMapping cols [r] [] = [(a, r.name)] := by
    simp [buildAliasMapping, hn, hf, insertAssoc]
  show (if (buildAliasMapping cols [r] []).isEmpty then cols
        else applyRename (buildAliasMapping cols [r] []) cols)
      = cols.map (fun c => if c = a then r.name else c)
  rw [hb]
  simp [applyRename_singleton]

theorem mapColumnAliases_single_absent (cols : List String)
    (r : RequiredColumn) (hn : r.name ∉ cols)
    (ha : ∀ x ∈ r.aliases, x ∉ cols) :
    mapColumnAliases cols [r] = cols := by
  have hf : r.aliases.find? (fun x => decide (x ∈ cols)) = none :=
    List.find?_eq_none.mpr (fun x hx => by simpa using ha x hx)
  have hb : buildAliasMapping cols [r] [] = [] := by
    simp [buildAliasMapping, hn, hf]
  show (if (buildAliasMapping cols [r] []).isEmpty then cols
        else applyRename (buildAliasMapping cols [r] []) cols) = cols
  rw [hb]
  rfl

/-- C7 (amended): per column-mapping entry, the two mappers behave as
follows.  Legacy mapper (map column aliases, conjuncts 1 to 3): if the
canonical name is already a column no rename occurs; otherwise the first
alias present (in declared order) is renamed to the canonical name; if
neither is present the entry changes nothing.  Registry mapper
(map columns, conjuncts 4 to 6): the declared source column, when
present, is renamed to the target even when the target is already a
column (there is no canonical-wins guard); the alias scan, first present
wins, runs only when the source column is absent; when neither source
nor alias is present the entry changes nothing.  Conjuncts 7 and 8: in
both mappers, renames are collected into one batch and applied in a
single atomic rename. -/
theorem C7_column_resolution (cols : List String) (r : RequiredColumn)
    (m : ColMapping) (s t a : String) (reqs : List RequiredColumn)
    (msL : List ColMapping) :
    (r.name ∈ cols → mapColumnAliases cols [r] = cols)
    ∧ (r.name ∉ cols →
        r.aliases.find? (fun x => decide (x ∈ cols)) = some a →
        mapColumnAliases cols [r]
          = cols.map (fun c => if c = a then r.name else c))
    ∧ (r.name ∉ cols → (∀ x ∈ r.aliases, x ∉ cols) →
        mapColumnAliases cols [r] = cols)
    ∧ (validEntry m = some (s, t) → s ∈ cols →
        mapColumns cols [m] = cols.map (fun c => if c = s then t else c))
    ∧ (validEntry m = some (s, t) → s ∉ cols →
        m.aliases.find? (fun x => decide (x ∈ cols)) = some a →
        mapColumns cols [m] = cols.map (fun c => if c = a then t else c))
    ∧ (validEntry m = some (s, t) → s ∉ cols →
        (∀ x ∈ m.aliases, x ∉ cols) → mapColumns cols [m] = cols)
    ∧ mapColumnAliases cols reqs
        = (if (buildAliasMapping cols reqs []).isEmpty then cols
           else applyRename (buildAliasMapping cols reqs []) cols)
    ∧ mapColumns cols msL
        = (if (buildColumnMapping cols msL []).isEmpty then cols
           else applyRename (buildColumnMapping cols msL []) cols) :=
  ⟨fun hn => mapColumnAliases_single_canonical cols r hn,
   fun hn hf => mapColumnAliases_single_alias cols r a hn hf,
   fun hn ha => mapColumnAliases_single_absent cols r hn ha,
   fun hv hs => mapColumns_single_source cols m s t hv hs,
   fun hv hs hf => mapColumns_single_alias cols m s t a hv hs hf,
   fun hv hs ha => mapColumns_single_absent cols m s t hv hs ha,
   rfl, rfl⟩

/-- Witness for C7: the legacy mapper leaves a dataset alone when the
canonical name is present, and the registry mapper renames a present
alias to the target when the source is absent. -/
theorem C7_column_resolution_witness :
    mapColumnAliases ["tgt", "src"] [⟨"tgt", ["src"]⟩] = ["tgt", "src"]
    ∧ mapColumns ["ali", "x"] [⟨some "src", ["ali"], some "tgt", none⟩]
        = (["ali", "x"] : List String).map
            (fun c => if c = "ali" then "tgt" else c) :=
  ⟨(C7_column_resolution ["tgt", "src"] ⟨"tgt", ["src"]⟩
      ⟨none, [], none, none⟩ "" "" "" [] []).1 (by decide),
   (C7_column_resolution ["ali", "x"] ⟨"", []⟩
      ⟨some "src", ["ali"], some "tgt", none⟩ "src" "tgt" "ali" [] []).2.2.2.2.1
     (by decide) (by decide) (by decide)⟩

/-- Counterexample for C7 as stated: in the registry mapper, with
columns [tgt, src] and the single entry (source src, target tgt), the
canonical name tgt is already a column, yet a rename still occurs — the
source column src is renamed to tgt, so the result is [tgt, tgt] rather
than the untouched [tgt, src] the claim requires. -/
theorem C7_column_resolution_counterexample :
    mapColumns ["tgt", "src"] [⟨some "src", [], some "tgt", none⟩]
      = ["tgt", "tgt"]
    ∧ mapColumns ["tgt", "src"] [⟨some "src", [], some "tgt", none⟩]
      ≠ ["tgt", "src"] := by
  decide

/-- C10: for a reference-data name that was never loaded (no metadata
recorded), check freshness returns false whatever the max-age override
argument is; the embedded function is a pure read of the state, so no
load is triggered (the code path returns before any load call). -/
theorem C10_checkFreshness_not_loaded (cfg : RefConfig) (now : Int)
    (st : RefState) (name : String) (override : Option Int)
    (h : lookupMeta st name = none) :
    checkFreshness cfg now st name override = false := by
  simp [checkFreshness, h]

/-- Witness for C10 at a concrete never-loaded name and an explicit
override. -/
theorem C10_checkFreshness_not_loaded_witness :
    checkFreshness ⟨[], none⟩ 0 ⟨[], [], []⟩ "x" (some 1000) = false :=
  C10_checkFreshness_not_loaded ⟨[], none⟩ 0 ⟨[], [], []⟩ "x" (some 1000) rfl

/-- Counterexample for C4 as stated: with no override and no
per-definition threshold but a configured default max age of 10 days,
the code judges 20-day-old data stale, while the claimed effective
maximum (the global default of 30 days) would make it fresh — the
fallback is the configured default, not the constant 30. -/
theorem C4_freshness_counterexample :
    checkFreshness ⟨[("r", ⟨some "p", none, none, none, none, none⟩)], some 10⟩
        (20 * 86400) ⟨[], [("r", ⟨0, "p", 1, ["A"], "1.0", 0⟩)], []⟩ "r" none
      = false
    ∧ ((20 * 86400 : Int) - 0).fdiv 86400 ≤ effectiveMaxSpec none none := by
  decide

/-- C4 (amended): for loaded reference data, freshness holds iff the age
in whole days (floor of now minus the recorded file modification time)
is at most the effective maximum age, which is the explicit override if
given, else the per-definition threshold, else the configured default,
else 30; age equal to the threshold is fresh and age equal to the
threshold plus one is stale. -/
theorem C4_checkFreshness (cfg : RefConfig) (now : Int) (st : RefState)
    (name : String) (override : Option Int) (meta : RefMeta)
    (h : lookupMeta st name = some meta) :
    (checkFreshness cfg now st name override = true ↔
        (now - meta.lastModified).fdiv 86400
          ≤ effectiveMaxAge cfg name override)
    ∧ ((now - meta.lastModified).fdiv 86400
          = effectiveMaxAge cfg name override →
        checkFreshness cfg now st name override = true)
    ∧ ((now - meta.lastModified).fdiv 86400
          = effectiveMaxAge cfg name override + 1 →
        checkFreshness cfg now st name override = false) := by
  have hiff : checkFreshness cfg now st name override = true ↔
      (now - meta.lastModified).fdiv 86400
        ≤ effectiveMaxAge cfg name override := by
    simp [checkFreshness, h, effectiveMaxAge]
  refine ⟨hiff, fun he => hiff.mpr (le_of_eq he), fun he => ?_⟩
  rcases Bool.eq_false_or_eq_true (checkFreshness cfg now st name override)
      with hb | hb
  · exact absurd (hiff.mp hb) (by omega)
  · exact hb

/-- Witness for C4 at a concrete configuration where the effective
maximum comes from the configured default (10 days) and the age equals
it exactly, so the data is fresh. -/
theorem C4_checkFreshness_witness :
    checkFreshness ⟨[("r", ⟨some "p", none, none, none, none, none⟩)], some 10⟩
        (10 * 86400) ⟨[], [("r", ⟨0, "p", 1, ["A"], "1.0", 0⟩)], []⟩ "r" none
      = true :=
  (C4_checkFreshness
      ⟨[("r", ⟨some "p", none, none, none, none, none⟩)], some 10⟩
      (10 * 86400) ⟨[], [("r", ⟨0, "p", 1, ["A"], "1.0", 0⟩)], []⟩ "r" none
      ⟨0, "p", 1, ["A"], "1.0", 0⟩ (by decide)).1.mpr (by decide)

theorem aggregateCompliance_getD (results : List (String × List Bool))
    (n i : Nat) (hne : results ≠ []) (hi : i < n) :
    (aggregateCompliance results n).getD i "" = rowCompliance results i := by
  unfold aggregateCompliance
  rw [if_neg (by simpa [List.isEmpty_iff] using hne)]
  rw [List.getD_eq_getElem?_getD, List.getElem?_map, List.getElem?_range hi]
  rfl

/-- C1: for a non-empty collection of aligned rule result vectors, the
aggregated per-row outcome is GC iff every rule result is true at that
row; every produced outcome is GC or DNC (PC is never produced); and
flipping any single rule result to false at a row forces that row to
DNC. -/
theorem C1_compliance_aggregation (results : List (String × List Bool))
    (n i : Nat) (hne : results ≠ []) (hi : i < n)
    (halign : ∀ p ∈ results, p.2.length = n) :
    ((aggregateCompliance results n).getD i "" = "GC" ↔
        ∀ p ∈ results, p.2.getD i false = true)
    ∧ (∀ s ∈ aggregateCompliance results n, s = "GC" ∨ s = "DNC")
    ∧ (∀ k v, (k, v) ∈ results →
        (aggregateCompliance (flipRuleAt results k i) n).getD i ""
          = "DNC") := by
  refine ⟨?_, ?_, ?_⟩
  · rw [aggregateCompliance_getD results n i hne hi]
    unfold rowCompliance
    by_cases hall : results.all (fun p => p.2.getD i false) = true
    · rw [if_pos hall]
      exact iff_of_true rfl (fun p hp => List.all_eq_true.mp hall p hp)
    · rw [if_neg hall]
      exact iff_of_false (by decide) (fun hforall => hall
        (List.all_eq_true.mpr hforall))
  · intro s hs
    unfold aggregateCompliance at hs
    rw [if_neg (by simpa [List.isEmpty_iff] using hne)] at hs
    obtain ⟨j, _, rfl⟩ := List.mem_map.mp hs
    unfold rowCompliance
    split
    · exact Or.inl rfl
    · exact Or.inr rfl
  · intro k v hkv
    have hne2 : flipRuleAt results k i ≠ [] := by
      simpa [flipRuleAt] using hne
    rw [aggregateCompliance_getD _ n i hne2 hi]
    unfold rowCompliance
    have hcond :
        ¬ ((flipRuleAt results k i).all (fun p => p.2.getD i false) = true) := by
      intro hall
      have hmem : (k, v.set i false) ∈ flipRuleAt results k i := by
        unfold flipRuleAt
        exact List.mem_map.mpr ⟨(k, v), hkv, by simp⟩
      have hv := List.all_eq_true.mp hall _ hmem
      have hlen : i < v.length := by rw [halign (k, v) hkv]; exact hi
      rw [List.getD_eq_getElem?_getD,
        List.getElem?_set_eq_of_lt _ hlen] at hv
      simp at hv
    rw [if_neg hcond]

/-- Witness for C1: flipping rule b to false at row 1 of an all-true
two-rule result set forces that row to DNC. -/
theorem C1_compliance_aggregation_witness :
    (aggregateCompliance
        (flipRuleAt [("a", [true, true]), ("b", [true, true])] "b" 1)
        2).getD 1 "" = "DNC" :=
  (C1_compliance_aggregation [("a", [true, true]), ("b", [true, true])] 2 1
      (by decide) (by decide) (by decide)).2.2 "b" [true, true] (by decide)

theorem insertAssoc_mem_self {α : Type} (l : List (String × α)) (k : String)
    (v : α) : (k, v) ∈ QA.insertAssoc l k v := by
  simp [QA.insertAssoc]

theorem insertAssoc_mem_of_ne {α : Type} (l : List (String × α))
    (k k2 : String) (v : α) (v2 : α) (hkv : (k, v) ∈ l) (hne : k ≠ k2) :
    (k, v) ∈ QA.insertAssoc l k2 v2 := by
  simp only [QA.insertAssoc, List.mem_append]
  exact Or.inl (List.mem_filter.mpr ⟨hkv, by simpa using hne⟩)

theorem buildResults_key_mem (reg : RuleRegistry) (refs : RefStore)
    (df : QA.DF) :
    ∀ (decls : List ValidationDecl) (acc : List (String × List Bool))
      (k : String), (∃ w, (k, w) ∈ acc) →
      ∃ w, (k, w) ∈ buildResults reg refs df decls acc := by
  intro decls
  induction decls with
  | nil => exact fun acc k h => h
  | cons v vs ih =>
    intro acc k h
    obtain ⟨w, hw⟩ := h
    apply ih
    by_cases hk : k = v.rule
    · subst hk
      exact ⟨resultFor reg refs df v, insertAssoc_mem_self acc v.rule _⟩
    · exact ⟨w, insertAssoc_mem_of_ne acc k v.rule w _ hw hk⟩

theorem buildResults_mem_of_decl (reg : RuleRegistry) (refs : RefStore)
    (df : QA.DF) :
    ∀ (decls : List ValidationDecl) (acc : List (String × List Bool))
      (v : ValidationDecl), v ∈ decls →
      ∃ w, (v.rule, w) ∈ buildResults reg refs df decls acc := by
  intro decls
  induction decls with
  | nil => intro acc v hv; exact absurd hv (List.not_mem_nil v)
  | cons u us ih =>
    intro acc v hv
    rcases List.mem_cons.mp hv with hv | hv
    · subst hv
      exact buildResults_key_mem reg refs df us _ v.rule
        ⟨resultFor reg refs df v, insertAssoc_mem_self acc v.rule _⟩
    · exact ih _ v hv

theorem buildResults_forall (reg : RuleRegistry) (refs : RefStore)
    (df : QA.DF) (P : String × List Bool → Prop)
    (hval : ∀ v : ValidationDecl, P (v.rule, resultFor reg refs df v)) :
    ∀ (decls : List ValidationDecl) (acc : List (String × List Bool)),
      (∀ p ∈ acc, P p) →
      ∀ p ∈ buildResults reg refs df decls acc, P p := by
  intro decls
  induction decls with
  | nil => exact fun acc h => h
  | cons v vs ih =>
    intro acc hacc
    apply ih
    intro p hp
    rcases List.mem_append.mp hp with hp | hp
    · exact hacc p (List.mem_of_mem_filter hp)
    · rcases List.mem_singleton.mp hp with rfl
      exact hval v

/-- C5: a declaration naming an unknown rule, or one whose rule raises,
yields the all-false vector aligned to the dataset rows; every declared
rule name still gets an entry in the result map (one bad rule does not
abort the run, which is total by construction); and, provided the rule
implementations return vectors aligned to the dataset as the spec
requires of them, every stored result vector has exactly one entry per
dataset row. -/
theorem C5_validation_error_handling (reg : RuleRegistry)
    (refs : RefStore) (df : QA.DF) (decls : List ValidationDecl)
    (hr : ∀ (name : String) (r : Rule) (p : Params)
        (o : Option RefStore) (res : List Bool),
        reg name = some r → r df p o = Except.ok res →
        res.length = df.nrows) :
    (∀ v : ValidationDecl, reg v.rule = none →
        resultFor reg refs df v = List.replicate df.nrows false)
    ∧ (∀ (v : ValidationDecl) (r : Rule), reg v.rule = some r →
        r df v.params
            (if v.rule = "title_based_approval" then some refs else none)
          = Except.error () →
        resultFor reg refs df v = List.replicate df.nrows false)
    ∧ (∀ v ∈ decls, ∃ w, (v.rule, w) ∈ (runValidations reg refs df decls).1)
    ∧ (∀ p ∈ (runValidations reg refs df decls).1,
        p.2.length = df.nrows) := by
  refine ⟨?_, ?_, ?_, ?_⟩
  · intro v hv
    simp only [resultFor, hv]
  · intro v r hv herr
    simp only [resultFor, hv, herr]
  · intro v hv
    exact buildResults_mem_of_decl reg refs df decls [] v hv
  · apply buildResults_forall reg refs df (fun p => p.2.length = df.nrows)
    · intro v
      show (resultFor reg refs df v).length = df.nrows
      unfold resultFor
      cases hv : reg v.rule with
      | none => simp
      | some r =>
        cases hres : r df v.params
            (if v.rule = "title_based_approval" then some refs else none) with
        | error e => simp [hres]
        | ok res =>
          simp only [hres]
          exact hr v.rule r _ _ res hv hres
    · intro p hp
      exact absurd hp (List.not_mem_nil p)

/-- Witness for C5: with an empty registry, a declared rule is unknown
and its stored result is the all-false vector over the two dataset
rows. -/
theorem C5_validation_error_handling_witness :
    resultFor (fun _ => none) [] ⟨["A"], 2⟩ ⟨"u", []⟩
      = List.replicate 2 false :=
  (C5_validation_error_handling (fun _ => none) [] ⟨["A"], 2⟩ [⟨"u", []⟩]
      (fun _ _ _ _ _ h _ => Option.noConfusion h)).1 ⟨"u", []⟩ rfl

theorem countVal_cons (r : String × String) (grp : List (String × String))
    (c : String) :
    countVal (r :: grp) c = (if r.2 == c then 1 else 0) + countVal grp c := by
  simp only [countVal, List.filter_cons]
  cases h : r.2 == c <;> simp [h, Nat.add_comm]

theorem sum_map_add {α : Type} (l : List α) (f g : α → Nat) :
    (l.map (fun x => f x + g x)).sum = (l.map f).sum + (l.map g).sum := by
  induction l with
  | nil => rfl
  | cons a l ih =>
    simp only [List.map_cons, List.sum_cons, ih]
    omega

theorem indicator_sum (cats : List String) (hnd : cats.Nodup) (x : String)
    (hx : x ∈ cats) :
    (cats.map (fun c => if x == c then 1 else 0)).sum = 1 := by
  induction cats with
  | nil => exact absurd hx (List.not_mem_nil x)
  | cons c cs ih =>
    rcases List.nodup_cons.mp hnd with ⟨hc, hcs⟩
    by_cases hxc : x = c
    · subst hxc
      have hzero : ∀ c2 ∈ cs, x ≠ c2 := fun c2 hc2 he => hc (he ▸ hc2)
      have hs : (List.map (fun c2 => if x == c2 then 1 else 0) cs).sum = 0 :=
        List.sum_eq_zero (fun y hy => by
          obtain ⟨c2, hc2, rfl⟩ := List.mem_map.mp hy
          simp [hzero c2 hc2])
      rw [List.map_cons, List.sum_cons, hs]
      simp
    · have hx2 : x ∈ cs := by
        rcases List.mem_cons.mp hx with h | h
        · exact absurd h hxc
        · exact h
      have hne : (x == c) = false := by simp [hxc]
      rw [List.map_cons, List.sum_cons, ih hcs hx2]
      simp [hne]

theorem sum_counts (cats : List String) (hnd : cats.Nodup)
    (grp : List (String × String)) (hall : ∀ r ∈ grp, r.2 ∈ cats) :
    (cats.map (fun c => countVal grp c)).sum = grp.length := by
  induction grp with
  | nil =>
    have hz : ∀ y ∈ cats.map
        (fun c => countVal ([] : List (String × String)) c), y = 0 := by
      intro y hy
      obtain ⟨c, _, rfl⟩ := List.mem_map.mp hy
      rfl
    simpa using List.sum_eq_zero hz
  | cons r grp ih =>
    have hall2 : ∀ x ∈ grp, x.2 ∈ cats :=
      fun x hx => hall x (List.mem_cons_of_mem _ hx)
    have hx : r.2 ∈ cats := hall r (List.mem_cons_self _ _)
    simp only [countVal_cons]
    rw [sum_map_add, indicator_sum cats hnd r.2 hx, ih hall2]
    simp [Nat.add_comm]

theorem countVal_GC_DNC (grp : List (String × String))
    (h : ∀ r ∈ grp, r.2 = "GC" ∨ r.2 = "DNC") :
    countVal grp "GC" + countVal grp "DNC" = grp.length := by
  induction grp with
  | nil => rfl
  | cons r grp ih =>
    have h2 : ∀ x ∈ grp, x.2 = "GC" ∨ x.2 = "DNC" :=
      fun x hx => h x (List.mem_cons_of_mem _ hx)
    have hlen := ih h2
    rcases h r (List.mem_cons_self _ _) with hr | hr <;>
      · simp only [countVal_cons, hr, List.length_cons]
        simp
        omega

theorem summaryCats_nodup (rows : List (String × String)) :
    (summaryCats rows).Nodup := by
  unfold summaryCats ensureCats
  refine List.Nodup.append (List.nodup_dedup _)
    (List.Nodup.filter _ (by decide)) ?_
  intro a ha hf
  have := (List.mem_filter.mp hf).2
  simp only [decide_eq_true_eq] at this
  exact this ha

theorem mem_summaryCats_extra (rows : List (String × String)) (x : String)
    (hx : x ∈ (["GC", "PC", "DNC"] : List String)) :
    x ∈ summaryCats rows := by
  unfold summaryCats ensureCats
  by_cases hb : x ∈ (rows.map Prod.snd).dedup
  · exact List.mem_append_left _ hb
  · exact List.mem_append_right _
      (List.mem_filter.mpr ⟨hx, by simpa using hb⟩)

theorem mem_summaryCats_of_row (rows : List (String × String))
    (r : String × String) (hr : r ∈ rows) : r.2 ∈ summaryCats rows := by
  unfold summaryCats ensureCats
  exact List.mem_append_left _
    (List.mem_dedup.mpr (List.mem_map_of_mem _ hr))

/-- C2: for a summary generated from an aggregated dataset (each row
outcome is GC or DNC), every group row satisfies GC plus DNC equals
Total, the DNC percentage is the rounded value of DNC over Total times
100, the threshold flag holds exactly when that percentage strictly
exceeds the configured threshold, and PC is zero-filled; all three
outcome categories are present among the summary category columns, and
the column order is the fixed GC, PC, DNC, Total, percentage,
threshold-flag order. -/
theorem C2_generate_summary (rows : List (String × String)) (threshold : ℚ)
    (hagg : ∀ r ∈ rows, r.2 = "GC" ∨ r.2 = "DNC") :
    (∀ s ∈ generateSummary rows threshold,
        s.gc + s.dnc = s.total
        ∧ s.dncPercentage = roundTo2 ((s.dnc : ℚ) / (s.total : ℚ) * 100)
        ∧ (s.exceedsThreshold = true ↔ s.dncPercentage > threshold)
        ∧ s.pc = 0)
    ∧ "GC" ∈ summaryCats rows ∧ "PC" ∈ summaryCats rows
    ∧ "DNC" ∈ summaryCats rows
    ∧ summaryColumnOrder
        = ["GC", "PC", "DNC", "Total", "DNC_Percentage",
           "Exceeds_Threshold"] := by
  refine ⟨?_, mem_summaryCats_extra rows "GC" (by decide),
    mem_summaryCats_extra rows "PC" (by decide),
    mem_summaryCats_extra rows "DNC" (by decide), rfl⟩
  intro s hs
  dsimp only [generateSummary] at hs
  obtain ⟨g, _, rfl⟩ := List.mem_map.mp hs
  unfold summaryRow
  have hsub : ∀ r ∈ rows.filter (fun r => r.1 == g), r ∈ rows :=
    fun r hr => List.mem_of_mem_filter hr
  have hall : ∀ r ∈ rows.filter (fun r => r.1 == g), r.2 ∈ summaryCats rows :=
    fun r hr => mem_summaryCats_of_row rows r (hsub r hr)
  have hgd : ∀ r ∈ rows.filter (fun r => r.1 == g),
      r.2 = "GC" ∨ r.2 = "DNC" := fun r hr => hagg r (hsub r hr)
  refine ⟨?_, rfl, ?_, ?_⟩
  · show countVal (rows.filter (fun r => r.1 == g)) "GC"
        + countVal (rows.filter (fun r => r.1 == g)) "DNC"
      = ((summaryCats rows).map
          (fun c => countVal (rows.filter (fun r => r.1 == g)) c)).sum
    rw [sum_counts _ (summaryCats_nodup rows) _ hall]
    exact countVal_GC_DNC _ hgd
  · simp only [decide_eq_true_eq]
  · show countVal (rows.filter (fun r => r.1 == g)) "PC" = 0
    unfold countVal
    rw [List.length_eq_zero]
    refine List.filter_eq_nil_iff.mpr ?_
    intro a ha
    rcases hgd a ha with h2 | h2 <;> simp [h2]

/-- Witness for C2 on the concrete aggregated dataset
[(A, GC), (A, DNC)] with threshold 15, at the group A summary row. -/
theorem C2_generate_summary_witness :
    (summaryRow [("A", "GC"), ("A", "DNC")] 15 "A").gc
          + (summaryRow [("A", "GC"), ("A", "DNC")] 15 "A").dnc
        = (summaryRow [("A", "GC"), ("A", "DNC")] 15 "A").total
    ∧ (summaryRow [("A", "GC"), ("A", "DNC")] 15 "A").dncPercentage
        = roundTo2
            (((summaryRow [("A", "GC"), ("A", "DNC")] 15 "A").dnc : ℚ)
              / ((summaryRow [("A", "GC"), ("A", "DNC")] 15 "A").total : ℚ)
              * 100)
    ∧ ((summaryRow [("A", "GC"), ("A", "DNC")] 15 "A").exceedsThreshold
          = true ↔
        (summaryRow [("A", "GC"), ("A", "DNC")] 15 "A").dncPercentage > 15)
    ∧ (summaryRow [("A", "GC"), ("A", "DNC")] 15 "A").pc = 0 :=
  (C2_generate_summary [("A", "GC"), ("A", "DNC")] 15 (by decide)).1
    (summaryRow [("A", "GC"), ("A", "DNC")] 15 "A")
    (List.mem_map_of_mem _ (by decide))

theorem loadReferenceData_fail (cfg : RefConfig) (fs : FS) (now : Int)
    (st : RefState) (name : String) (filePath : Option String)
    (h : (loadReferenceData cfg fs now st name filePath).2 = false) :
    (loadReferenceData cfg fs now st name filePath).1 = st := by
  unfold loadReferenceData at *
  cases hp : loadRefPure cfg fs now name filePath with
  | none => simp [hp]
  | some dm =>
    obtain ⟨d, m⟩ := dm
    rw [hp] at h
    simp at h

theorem loadReferenceData_auditLog (cfg : RefConfig) (fs : FS) (now : Int)
    (st : RefState) (name : String) (filePath : Option String) :
    (loadReferenceData cfg fs now st name filePath).1.auditLog
      = st.auditLog := by
  unfold loadReferenceData
  cases hp : loadRefPure cfg fs now name filePath with
  | none => rfl
  | some dm => obtain ⟨d, m⟩ := dm; rfl

theorem updateReferenceData_snd (cfg : RefConfig) (fs : FS) (now : Int)
    (st : RefState) (name filePath user : String) :
    (updateReferenceData cfg fs now st name filePath user).2
      = (loadReferenceData cfg fs now st name (some filePath)).2 := by
  unfold updateReferenceData
  rcases hb : (loadReferenceData cfg fs now st name (some filePath)).2
      with _ | _ <;> simp [hb]

/-- C3: a successful reference-data update appends exactly one audit
entry, whose previous-version field is the metadata snapshot recorded
before the update (none when never loaded) and whose new-version field
is the metadata recorded after it, so the audit log grows by exactly
one; a failed update returns the state completely unchanged (reference
data, metadata and audit log alike); and in every case the audit log
length is monotonically non-decreasing. -/
theorem C3_update_reference_audit (cfg : RefConfig) (fs : FS) (now : Int)
    (st : RefState) (name filePath user : String) :
    ((updateReferenceData cfg fs now st name filePath user).2 = true →
      (updateReferenceData cfg fs now st name filePath user).1.auditLog
          = st.auditLog
            ++ [{ timestamp := now, action := "update_reference",
                  name := name, user := user,
                  previousVersion := lookupMeta st name,
                  newVersion := lookupMeta
                    (updateReferenceData cfg fs now st name filePath
                      user).1 name }]
      ∧ (updateReferenceData cfg fs now st name filePath
            user).1.auditLog.length = st.auditLog.length + 1)
    ∧ ((updateReferenceData cfg fs now st name filePath user).2 = false →
        (updateReferenceData cfg fs now st name filePath user).1 = st)
    ∧ st.auditLog.length
        ≤ (updateReferenceData cfg fs now st name filePath
            user).1.auditLog.length := by
  have hsnd := updateReferenceData_snd cfg fs now st name filePath user
  have hlog := loadReferenceData_auditLog cfg fs now st name (some filePath)
  refine ⟨?_, ?_, ?_⟩
  · intro hok
    have hres : (loadReferenceData cfg fs now st name (some filePath)).2
        = true := by rw [← hsnd]; exact hok
    unfold updateReferenceData
    rw [if_pos hres, hlog]
    exact ⟨rfl, by simp⟩
  · intro hfail
    have hres : (loadReferenceData cfg fs now st name (some filePath)).2
        = false := by rw [← hsnd]; exact hfail
    unfold updateReferenceData
    rw [if_neg (by simp [hres])]
    exact loadReferenceData_fail cfg fs now st name (some filePath) hres
  · rcases hb : (loadReferenceData cfg fs now st name (some filePath)).2
        with _ | _
    · unfold updateReferenceData
      rw [if_neg (by simp [hb])]
      rw [loadReferenceData_fail cfg fs now st name (some filePath) hb]
    · unfold updateReferenceData
      rw [if_pos hb, hlog]
      simp

/-- Witness for C3: a concrete successful update starting from the empty
state appends one entry and the audit log length becomes one. -/
theorem C3_update_reference_audit_witness :
    (updateReferenceData
        ⟨[("cc", ⟨some "p1", none, none, none, some "2.0", none⟩)], none⟩
        (fun p => if p = "p2" then some ⟨".csv", 100, some ⟨["K"], []⟩⟩
          else none)
        0 ⟨[], [], []⟩ "cc" "p2" "u").1.auditLog.length
      = (⟨[], [], []⟩ : RefState).auditLog.length + 1 :=
  ((C3_update_reference_audit
      ⟨[("cc", ⟨some "p1", none, none, none, some "2.0", none⟩)], none⟩
      (fun p => if p = "p2" then some ⟨".csv", 100, some ⟨["K"], []⟩⟩
        else none)
      0 ⟨[], [], []⟩ "cc" "p2" "u").1 (by rfl)).2

theorem validateData_missing_mem (df : QA.DF)
    (rules : List ValidationRuleCfg) (rule : ValidationRuleCfg)
    (hr : rule ∈ rules) (ht : rule.ruleType = "required_columns")
    (hm : (rule.columns.filter (fun c => decide (c ∉ df.columns))).isEmpty
        = false) :
    QA.Warning.missingColumns
        (rule.columns.filter (fun c => decide (c ∉ df.columns)))
      ∈ validateData df rules := by
  induction rules with
  | nil => exact absurd hr (List.not_mem_nil rule)
  | cons r rs ih =>
    rcases List.mem_cons.mp hr with h | h
    · subst h
      unfold validateData
      apply List.mem_append_left
      rw [ht]
      simp only [hm]
      simp
    · unfold validateData
      exact List.mem_append_right _ (ih h)

theorem mismatch_not_mem_validateData (df : QA.DF) (e : String)
    (rules : List ValidationRuleCfg) :
    QA.Warning.fileTypeMismatch e ∉ validateData df rules := by
  induction rules with
  | nil => simp [validateData]
  | cons r rs ih =>
    unfold validateData
    simp only [List.mem_append]
    rintro (h | h)
    · split at h
      · split at h <;> simp at h
      · split at h
        · split at h <;> simp at h
        · simp at h
    · exact ih h

theorem loadDataSource_success_eq
    (registry : String → Option SourceConfig)
    (fs : String → Option FileData) (fresh : Option Int) (now : Int)
    (sname fpath : String) (cfg : SourceConfig) (file : FileData)
    (df : QA.DF)
    (hreg : registry sname = some cfg) (hfs : fs fpath = some file)
    (hcond : (decide (file.ext ∈ [".xlsx", ".xls"]) || (file.ext == ".csv"))
        = true)
    (hread : file.read = some df) (hnz : (df.nrows == 0) = false) :
    loadDataSource registry fs fresh now sname fpath
      = (true,
         some { df with columns := mapColumns df.columns cfg.columnsMapping },
         (if (now - file.mtime).fdiv 86400 > fresh.getD 7 then
            ((if decide (toLowerStr (cfg.fileType.getD "xlsx") = "xlsx")
                  && decide (file.ext ∉ [".xlsx", ".xls"]) then
                [QA.Warning.fileTypeMismatch file.ext] else [])
              ++ validateData df cfg.validationRules)
            ++ [QA.Warning.dataAge sname ((now - file.mtime).fdiv 86400)
                  (fresh.getD 7)]
          else
            (if decide (toLowerStr (cfg.fileType.getD "xlsx") = "xlsx")
                  && decide (file.ext ∉ [".xlsx", ".xls"]) then
              [QA.Warning.fileTypeMismatch file.ext] else [])
            ++ validateData df cfg.validationRules)) := by
  unfold loadDataSource
  simp only [hreg, hfs, hread]
  rw [if_pos hcond]
  rw [if_neg (by simp [hnz])]

/-- C8: missing required columns are handled asymmetrically by loading
path.  Registry-driven loads that reach the validation stage succeed
even when a required-columns rule finds missing columns — the miss is
recorded only as a warning in the returned warning list.  Direct
(legacy) loads fail whenever any required column is missing after alias
mapping. -/
theorem C8_missing_columns_asymmetry
    (registry : String → Option SourceConfig)
    (fs : String → Option FileData) (fresh : Option Int) (now : Int)
    (sname fpath : String) (cfg : SourceConfig) (file : FileData)
    (df : QA.DF) (rule : ValidationRuleCfg)
    (reqs : List RequiredColumn) (dfL : QA.DF)
    (hreg : registry sname = some cfg) (hfs : fs fpath = some file)
    (hext : file.ext ∈ [".xlsx", ".xls", ".csv"])
    (hread : file.read = some df) (hnz : df.nrows ≠ 0) :
    (rule ∈ cfg.validationRules → rule.ruleType = "required_columns" →
      (rule.columns.filter (fun c => decide (c ∉ df.columns))).isEmpty
          = false →
      (loadDataSource registry fs fresh now sname fpath).1 = true
      ∧ QA.Warning.missingColumns
          (rule.columns.filter (fun c => decide (c ∉ df.columns)))
        ∈ (loadDataSource registry fs fresh now sname fpath).2.2)
    ∧ ((checkRequiredColumnsOld reqs
          (mapColumnAliases dfL.columns reqs)).isEmpty = false →
        (loadSourceDataDirect reqs (some dfL)).1 = false) := by
  have hcond : (decide (file.ext ∈ [".xlsx", ".xls"])
      || (file.ext == ".csv")) = true := by
    simp only [List.mem_cons, List.not_mem_nil, or_false] at hext
    rcases hext with h | h | h <;> simp [h]
  have hnzb : (df.nrows == 0) = false := by simpa using hnz
  have heq := loadDataSource_success_eq registry fs fresh now sname fpath
    cfg file df hreg hfs hcond hread hnzb
  constructor
  · intro hrule htype hmiss
    have hmem := validateData_missing_mem df cfg.validationRules rule
      hrule htype hmiss
    rw [heq]
    refine ⟨rfl, ?_⟩
    dsimp only
    split
    · exact List.mem_append_left _ (List.mem_append_right _ hmem)
    · exact List.mem_append_right _ hmem
  · intro hmiss
    simp [loadSourceDataDirect, hmiss]

/-- Witness for C8: a registry load of a file lacking the required
column Amount succeeds with the missing-columns warning, while the
legacy direct load of the same data fails. -/
theorem C8_missing_columns_asymmetry_witness :
    (loadDataSource
        (fun n => if n = "s" then
          some ⟨some "xlsx", none, [⟨"required_columns", 0, ["Amount"]⟩], []⟩
          else none)
        (fun p => if p = "f.xlsx" then
          some ⟨".xlsx", 0, some ⟨["Other"], 4⟩⟩ else none)
        none 0 "s" "f.xlsx").1 = true
    ∧ QA.Warning.missingColumns
        ((["Amount"] : List String).filter
          (fun c => decide (c ∉ (["Other"] : List String))))
      ∈ (loadDataSource
          (fun n => if n = "s" then
            some ⟨some "xlsx", none, [⟨"required_columns", 0, ["Amount"]⟩], []⟩
            else none)
          (fun p => if p = "f.xlsx" then
            some ⟨".xlsx", 0, some ⟨["Other"], 4⟩⟩ else none)
          none 0 "s" "f.xlsx").2.2
    ∧ (loadSourceDataDirect [⟨"Amount", []⟩] (some ⟨["Other"], 4⟩)).1
        = false := by
  have h := C8_missing_columns_asymmetry
    (fun n => if n = "s" then
      some ⟨some "xlsx", none, [⟨"required_columns", 0, ["Amount"]⟩], []⟩
      else none)
    (fun p => if p = "f.xlsx" then
      some ⟨".xlsx", 0, some ⟨["Other"], 4⟩⟩ else none)
    none 0 "s" "f.xlsx"
    ⟨some "xlsx", none, [⟨"required_columns", 0, ["Amount"]⟩], []⟩
    ⟨".xlsx", 0, some ⟨["Other"], 4⟩⟩ ⟨["Other"], 4⟩
    ⟨"required_columns", 0, ["Amount"]⟩ [⟨"Amount", []⟩] ⟨["Other"], 4⟩
    (by decide) (by decide) (by decide) (by decide) (by decide)
  obtain ⟨hmain, hlegacy⟩ := h
  obtain ⟨hsuc, hmem⟩ := hmain (by decide) (by decide) (by decide)
  exact ⟨hsuc, hmem, hlegacy (by decide)⟩

/-- C9 (amended): for a registry-driven load, the file-type mismatch
warning is present in the warnings of a successful load exactly when the
expected type of the definition (default xlsx) lowercases to xlsx and the
extension is not .xlsx or .xls; for any other expected type no mismatch
warning is produced; and the mismatch check never causes failure — for
every expected type, a readable non-empty file loads successfully. -/
theorem C9_file_type_mismatch (registry : String → Option SourceConfig)
    (fs : String → Option FileData) (fresh : Option Int) (now : Int)
    (sname fpath : String) (cfg : SourceConfig) (file : FileData)
    (df : QA.DF)
    (hreg : registry sname = some cfg) (hfs : fs fpath = some file)
    (hread : file.read = some df) :
    ((loadDataSource registry fs fresh now sname fpath).1 = true →
      (QA.Warning.fileTypeMismatch file.ext
          ∈ (loadDataSource registry fs fresh now sname fpath).2.2 ↔
        (toLowerStr (cfg.fileType.getD "xlsx") = "xlsx"
          ∧ file.ext ∉ [".xlsx", ".xls"])))
    ∧ (df.nrows ≠ 0 → file.ext ∈ [".xlsx", ".xls", ".csv"] →
        (loadDataSource registry fs fresh now sname fpath).1 = true) := by
  constructor
  · intro hsuc
    by_cases hcond : (decide (file.ext ∈ [".xlsx", ".xls"])
        || (file.ext == ".csv")) = true
    · rcases hb : (df.nrows == 0) with _ | _
      · have heq := loadDataSource_success_eq registry fs fresh now sname
          fpath cfg file df hreg hfs hcond hread hb
        rw [heq]
        dsimp only
        have hw0 : (if decide (toLowerStr (cfg.fileType.getD "xlsx")
                = "xlsx") && decide (file.ext ∉ [".xlsx", ".xls"]) then
              [QA.Warning.fileTypeMismatch file.ext] else [])
            = if (toLowerStr (cfg.fileType.getD "xlsx") = "xlsx"
                ∧ file.ext ∉ [".xlsx", ".xls"]) then
              [QA.Warning.fileTypeMismatch file.ext] else [] := by
          by_cases hA : toLowerStr (cfg.fileType.getD "xlsx") = "xlsx" <;>
            by_cases hB : file.ext ∉ [".xlsx", ".xls"] <;> simp [hA, hB]
        rw [hw0]
        by_cases hc : toLowerStr (cfg.fileType.getD "xlsx") = "xlsx"
            ∧ file.ext ∉ [".xlsx", ".xls"]
        · rw [if_pos hc]
          refine iff_of_true ?_ hc
          split <;> simp [List.mem_append]
        · rw [if_neg hc]
          refine iff_of_false ?_ hc
          split <;>
            simp [List.mem_append,
              mismatch_not_mem_validateData df file.ext cfg.validationRules]
      · exfalso
        have hf : (loadDataSource registry fs fresh now sname fpath).1
            = false := by
          unfold loadDataSource
          simp only [hreg, hfs, hread]
          rw [if_pos hcond, if_pos hb]
        simp [hf] at hsuc
    · exfalso
      have hf : (loadDataSource registry fs fresh now sname fpath).1
          = false := by
        unfold loadDataSource
        simp only [hreg, hfs]
        rw [if_neg hcond]
      simp [hf] at hsuc
  · intro hnz hext
    have hcond : (decide (file.ext ∈ [".xlsx", ".xls"])
        || (file.ext == ".csv")) = true := by
      simp only [List.mem_cons, List.not_mem_nil, or_false] at hext
      rcases hext with h | h | h <;> simp [h]
    have hnzb : (df.nrows == 0) = false := by simpa using hnz
    rw [loadDataSource_success_eq registry fs fresh now sname fpath cfg
      file df hreg hfs hcond hread hnzb]

/-- Witness for C9: with expected type xlsx and a .csv file, the load
succeeds and the mismatch warning is present, per the iff. -/
theorem C9_file_type_mismatch_witness :
    (QA.Warning.fileTypeMismatch ".csv"
        ∈ (loadDataSource
            (fun n => if n = "s" then some ⟨some "xlsx", none, [], []⟩
              else none)
            (fun p => if p = "f.csv" then some ⟨".csv", 0, some ⟨["A"], 1⟩⟩
              else none)
            none 0 "s" "f.csv").2.2 ↔
      (toLowerStr ((some "xlsx").getD "xlsx") = "xlsx"
        ∧ (".csv" : String) ∉ ([".xlsx", ".xls"] : List String))) :=
  ((C9_file_type_mismatch
      (fun n => if n = "s" then some ⟨some "xlsx", none, [], []⟩ else none)
      (fun p => if p = "f.csv" then some ⟨".csv", 0, some ⟨["A"], 1⟩⟩
        else none)
      none 0 "s" "f.csv" ⟨some "xlsx", none, [], []⟩
      ⟨".csv", 0, some ⟨["A"], 1⟩⟩ ⟨["A"], 1⟩
      (by decide) (by decide) (by decide)).1 (by decide))

/-- Counterexample for C9 as stated: with expected type csv and an
.xlsx file — the extension-inferred type differs from the declared
expected type — the load succeeds but the warning list is empty: no
file-type mismatch warning is appended, because the code only checks
the mismatch when the expected type is xlsx. -/
theorem C9_file_type_mismatch_counterexample :
    (loadDataSource
        (fun n => if n = "s" then some ⟨some "csv", none, [], []⟩ else none)
        (fun p => if p = "f.xlsx" then some ⟨".xlsx", 0, some ⟨["A"], 1⟩⟩
          else none)
        none 0 "s" "f.xlsx").1 = true
    ∧ (loadDataSource
        (fun n => if n = "s" then some ⟨some "csv", none, [], []⟩ else none)
        (fun p => if p = "f.xlsx" then some ⟨".xlsx", 0, some ⟨["A"], 1⟩⟩
          else none)
        none 0 "s" "f.xlsx").2.2 = []
    ∧ toLowerStr ((some "csv").getD "xlsx") ≠ "xlsx" := by
  refine ⟨by decide, by decide, by decide⟩
